import Mathlib

/-!
Verification development for the coverage_utils repository.

The repository consists of three near-identical compositing scripts:
src/composite.py (best-signal merge), src/composite_best_server.py
(attributed best-server merge) and src/composite_redundancy.py
(overlap-consensus merge).  Each script loads a color lookup table
(`ColorScale.load_lcf`), loads a set of georeferenced raster layers,
computes a union canvas at the reference layer's pixel density, and folds
each layer into shared canvas buffers (`create_composite_map`).

The embedding below translates those parts of the scripts that the claims
are about.  Real arithmetic performed by Python floats is modelled over ℚ;
numpy uint8 buffers are modelled as ℕ values taken modulo 256 where the
code can actually wrap; 2-D numpy arrays are modelled as functions from
row/column indices.
-/

namespace CoverageUtils

/-- A color triple, as the Python tuples `(r, g, b)` produced by `int()`
conversion of LCF fields and by reading 8-bit image pixels. -/
abbrev Color := ℤ × ℤ × ℤ

/-- An RGBA pixel of the output buffers: color triple plus alpha. -/
abbrev RGBA := Color × ℤ

/-- UNDEFINED_PATH_LOSS = 9999.0 in all three scripts. -/
def UNDEFINED_PATH_LOSS : ℚ := 9999

/-- VALID_THRESHOLD_DB = 150.0 in composite_best_server.py and
composite_redundancy.py. -/
def VALID_THRESHOLD_DB : ℚ := 150

/-- MIN_OVERLAP_COUNT = 2 in composite_redundancy.py. -/
def MIN_OVERLAP_COUNT : ℕ := 2

/-- The fully transparent pixel (0, 0, 0, 0). -/
def transparentPx : RGBA := ((0, 0, 0), 0)

/-- An opaque pixel carrying color c with alpha 255. -/
def opaquePx (c : Color) : RGBA := (c, 255)

/-! ## ColorScale / LCF parsing (ColorScale.load_lcf in all three scripts)

A source line is modelled by exactly the information `load_lcf` inspects:
whether the stripped line is blank or starts with '#', and otherwise the
token list produced by `re.split(r'[;:,]\s*', line)`, each token given by
the result of Python `float()` (used on field 0) and `int()` (used on
fields 1..3), `none` when the conversion raises ValueError. -/

/-- One separator-split field of an LCF line. -/
structure Token where
  toFloat : Option ℚ
  toInt : Option ℤ
  deriving DecidableEq, Repr

/-- One line of the LCF source after stripping. -/
inductive LCFLine where
  | blank : LCFLine
  | comment : LCFLine
  | row : List Token → LCFLine
  deriving DecidableEq, Repr

/-- The per-line body of the load_lcf loop: blank and comment lines are
skipped, a line needs at least 4 fields, `db = float(parts[0])` and
`r, g, b = int(parts[1]), int(parts[2]), int(parts[3])` must all succeed,
otherwise the whole line is skipped. -/
def parseLine : LCFLine → Option (ℚ × Color)
  | .blank => none
  | .comment => none
  | .row (p0 :: p1 :: p2 :: p3 :: _) =>
      match p0.toFloat, p1.toInt, p2.toInt, p3.toInt with
      | some db, some r, some g, some b => some (db, (r, g, b))
      | _, _, _, _ => none
  | .row _ => none

/-- The stream of successfully parsed (db, color) pairs, in line order. -/
def parsedEntries (lines : List LCFLine) : List (ℚ × Color) :=
  lines.filterMap parseLine

/-- Python dict assignment `d[(r, g, b)] = db`: replaces the value at an
existing key in place (insertion order preserved), otherwise appends. -/
def dictInsert : List (Color × ℚ) → Color → ℚ → List (Color × ℚ)
  | [], k, v => [(k, v)]
  | p :: d, k, v => if p.1 = k then (k, v) :: d else p :: dictInsert d k v

/-- Python dict lookup `d.get((r, g, b))`. -/
def dictLookup (d : List (Color × ℚ)) (k : Color) : Option ℚ :=
  (d.find? (fun p => decide (p.1 = k))).map (fun p => p.2)

/-- The color_map dict built by the load_lcf loop. -/
def buildColorMap (es : List (ℚ × Color)) : List (Color × ℚ) :=
  es.foldl (fun d e => dictInsert d e.2 e.1) []

/-- Stable insertion of an entry into a value-sorted list: the new entry
goes after every entry whose value is ≤ its own. -/
def insEntry (e : ℚ × Color) : List (ℚ × Color) → List (ℚ × Color)
  | [] => [e]
  | x :: xs => if e.1 < x.1 then e :: x :: xs else x :: insEntry e xs

/-- Stable sort of the entries list by value, modelling
`self.entries.sort(key=lambda x: x[0])` (Python list.sort is a stable
ascending sort, so any stable ascending sort computes the same list). -/
def sortEntries (l : List (ℚ × Color)) : List (ℚ × Color) :=
  l.foldl (fun acc e => insEntry e acc) []

/-- The in-memory state of a loaded ColorScale: the color_map dict and the
entries legend list (composite.py lines 18-42).  composite_best_server.py
has no entries list; its color_map is built identically. -/
structure ColorScale where
  color_map : List (Color × ℚ)
  entries : List (ℚ × Color)
  deriving DecidableEq, Repr

/-- ColorScale.load_lcf on the line stream of an existing file: the single
parsing loop appends to color_map and entries per successfully parsed
line, then sorts entries by value.  The loop is rendered here as the
parsed-line stream consumed by the dict fold and by the sort. -/
def load_lcf (lines : List LCFLine) : ColorScale :=
  { color_map := buildColorMap (parsedEntries lines)
    entries := sortEntries (parsedEntries lines) }

/-- The failure alphabet of ColorScale loading: the only raise in load_lcf
is FileNotFoundError when the path does not exist. -/
inductive LoadErr where
  | notFound : LoadErr
  deriving DecidableEq, Repr

/-- Loading the ColorScale: `none` stands for a missing file (os.path.exists
false, FileNotFoundError raised), `some lines` for an existing file with
the given stripped line stream. -/
def loadColorScale : Option (List LCFLine) → Except LoadErr ColorScale
  | none => .error .notFound
  | some lines => .ok (load_lcf lines)

/-! ## Layers and the coordinate transform -/

/-- A geographic bounding box in degrees, from the LatLonBox of a layer's
KML descriptor. -/
structure GeoBox where
  north : ℚ
  south : ℚ
  east : ℚ
  west : ℚ
  deriving DecidableEq, Repr

/-- One loaded layer: its bounding box, raster dimensions, and raster
pixels (row y, column x), 3-channel 8-bit colors from convert('RGB'). -/
structure MapLayer where
  box : GeoBox
  height : ℕ
  width : ℕ
  pix : ℕ → ℕ → Color

/-- Python int() truncation toward zero of a rational. -/
def truncQ (q : ℚ) : ℤ := if 0 ≤ q then ⌊q⌋ else ⌈q⌉

/-- The union bounding box of a nonempty layer list l0 :: rest:
global_north = max of all norths, and so on. -/
def globalBox (l0 : MapLayer) (rest : List MapLayer) : GeoBox :=
  { north := rest.foldl (fun a l => max a l.box.north) l0.box.north
    south := rest.foldl (fun a l => min a l.box.south) l0.box.south
    east := rest.foldl (fun a l => max a l.box.east) l0.box.east
    west := rest.foldl (fun a l => min a l.box.west) l0.box.west }

/-- ppd_lat = h / (ref.north - ref.south) of the reference layer. -/
def ppdLat (ref : MapLayer) : ℚ := (ref.height : ℚ) / (ref.box.north - ref.box.south)

/-- ppd_lon = w / (ref.east - ref.west) of the reference layer. -/
def ppdLon (ref : MapLayer) : ℚ := (ref.width : ℚ) / (ref.box.east - ref.box.west)

/-- master_h = int((global_north - global_south) * ppd_lat). -/
def masterH (l0 : MapLayer) (rest : List MapLayer) : ℤ :=
  truncQ (((globalBox l0 rest).north - (globalBox l0 rest).south) * ppdLat l0)

/-- master_w = int((global_east - global_west) * ppd_lon). -/
def masterW (l0 : MapLayer) (rest : List MapLayer) : ℤ :=
  truncQ (((globalBox l0 rest).east - (globalBox l0 rest).west) * ppdLon l0)

/-- y_start = int((global_north - layer.north) * ppd_lat).  Nonnegative
whenever g is the union box, since then g.north ≥ layer.north. -/
def yStartOf (g : GeoBox) (pLat : ℚ) (L : MapLayer) : ℕ :=
  (truncQ ((g.north - L.box.north) * pLat)).toNat

/-- x_start = int((layer.west - global_west) * ppd_lon).  Nonnegative
whenever g is the union box, since then g.west ≤ layer.west. -/
def xStartOf (g : GeoBox) (pLon : ℚ) (L : MapLayer) : ℕ :=
  (truncQ ((L.box.west - g.west) * pLon)).toNat

/-- Membership of canvas pixel (y, x) in the pasted slice
[yS, yE) × [xS, xE). -/
def inRegion (yS yE xS xE y x : ℕ) : Prop :=
  yS ≤ y ∧ y < yE ∧ xS ≤ x ∧ x < xE

instance (yS yE xS xE y x : ℕ) : Decidable (inRegion yS yE xS xE y x) := by
  unfold inRegion
  exact inferInstance

/-- Decoding one pixel color through the color_map: the loop
`for (r,g,b), db in color_map.items(): temp_loss[mask] = db` writes the
dict value at each pixel whose color is a key (keys are unique) and leaves
UNDEFINED_PATH_LOSS elsewhere. -/
def decode (cmap : List (Color × ℚ)) (c : Color) : ℚ :=
  match dictLookup cmap c with
  | some db => db
  | none => UNDEFINED_PATH_LOSS

/-! ## BestSignal merge (composite.py create_composite_map) -/

/-- Canvas state of composite.py: master_loss (float32 grid initialized to
UNDEFINED_PATH_LOSS) and master_rgba (uint8 RGBA grid initialized to 0). -/
structure CanvasBS where
  master_loss : ℕ → ℕ → ℚ
  master_rgba : ℕ → ℕ → RGBA

/-- The initial BestSignal canvas. -/
def initBS : CanvasBS :=
  { master_loss := fun _ _ => UNDEFINED_PATH_LOSS
    master_rgba := fun _ _ => transparentPx }

/-- Merging one layer under BestSignal (composite.py lines 194-225):
inside the pasted slice, update_mask = (temp_loss < master_slice) &
(temp_loss != UNDEFINED_PATH_LOSS); where the mask holds, the loss grid
takes the decoded value and the rgba grid takes the layer's raw pixel
color with alpha 255; everywhere else both grids are unchanged. -/
def mergeBS (cmap : List (Color × ℚ)) (mH mW : ℕ) (g : GeoBox) (pLat pLon : ℚ)
    (c : CanvasBS) (L : MapLayer) : CanvasBS :=
  let yS := yStartOf g pLat L
  let xS := xStartOf g pLon L
  let yE := min (yS + L.height) mH
  let xE := min (xS + L.width) mW
  { master_loss := fun y x =>
      if inRegion yS yE xS xE y x then
        let v := decode cmap (L.pix (y - yS) (x - xS))
        if v < c.master_loss y x ∧ v ≠ UNDEFINED_PATH_LOSS then v
        else c.master_loss y x
      else c.master_loss y x
    master_rgba := fun y x =>
      if inRegion yS yE xS xE y x then
        let v := decode cmap (L.pix (y - yS) (x - xS))
        if v < c.master_loss y x ∧ v ≠ UNDEFINED_PATH_LOSS then
          opaquePx (L.pix (y - yS) (x - xS))
        else c.master_rgba y x
      else c.master_rgba y x }

/-- The whole BestSignal merge loop of composite.py over the discovered
layers l0 :: rest, with the reference density and union box fixed before
the loop. -/
def compositeBS (cs : ColorScale) (l0 : MapLayer) (rest : List MapLayer) : CanvasBS :=
  (l0 :: rest).foldl
    (mergeBS cs.color_map (masterH l0 rest).toNat (masterW l0 rest).toNat
      (globalBox l0 rest) (ppdLat l0) (ppdLon l0))
    initBS

/-- create_composite_map of composite.py up to the canvas result: a
failure loading the ColorScale returns before any layer work; an empty
layer list returns; otherwise the merge loop runs. -/
def create_composite_map (lcf : Option (List LCFLine)) (layers : List MapLayer) :
    Option CanvasBS :=
  match loadColorScale lcf with
  | .error _ => none
  | .ok cs =>
      match layers with
      | [] => none
      | l0 :: rest => some (compositeBS cs l0 rest)

/-! ## AttributedBestServer merge (composite_best_server.py) -/

/-- SERVER_PALETTE of composite_best_server.py. -/
def SERVER_PALETTE : List Color :=
  [(255, 0, 0), (0, 0, 255), (0, 128, 0), (255, 165, 0), (128, 0, 128),
   (0, 255, 255), (255, 20, 147), (255, 255, 0), (139, 69, 19), (0, 0, 0)]

/-- A layer plus the ordinal identity and palette color assigned at
discovery: the i-th successfully loaded layer gets index i + 1 and color
SERVER_PALETTE[i % len(SERVER_PALETTE)]. -/
structure SrvLayer where
  layer : MapLayer
  index : ℕ
  display_color : Color

/-- Sequential identity and palette assignment over discovery order. -/
def assignLayers (layers : List MapLayer) : List SrvLayer :=
  layers.enum.map (fun p =>
    { layer := p.2
      index := p.1 + 1
      display_color := SERVER_PALETTE.getD (p.1 % SERVER_PALETTE.length) (0, 0, 0) })

/-- Canvas state of composite_best_server.py: master_loss plus the uint8
owner-id grid master_owner_id (0 = no coverage). -/
structure CanvasAS where
  master_loss : ℕ → ℕ → ℚ
  master_owner_id : ℕ → ℕ → ℕ

/-- The initial AttributedBestServer canvas. -/
def initAS : CanvasAS :=
  { master_loss := fun _ _ => UNDEFINED_PATH_LOSS
    master_owner_id := fun _ _ => 0 }

/-- Merging one layer under AttributedBestServer (composite_best_server.py
lines 193-224): better_mask = (temp_loss < master_slice) &
(temp_loss <= VALID_THRESHOLD_DB); where the mask holds, the loss grid
takes the decoded value and the owner grid takes the layer's index (stored
into a uint8 grid, hence modulo 256); elsewhere both are unchanged. -/
def mergeAS (cmap : List (Color × ℚ)) (mH mW : ℕ) (g : GeoBox) (pLat pLon : ℚ)
    (c : CanvasAS) (S : SrvLayer) : CanvasAS :=
  let L := S.layer
  let yS := yStartOf g pLat L
  let xS := xStartOf g pLon L
  let yE := min (yS + L.height) mH
  let xE := min (xS + L.width) mW
  { master_loss := fun y x =>
      if inRegion yS yE xS xE y x then
        let v := decode cmap (L.pix (y - yS) (x - xS))
        if v < c.master_loss y x ∧ v ≤ VALID_THRESHOLD_DB then v
        else c.master_loss y x
      else c.master_loss y x
    master_owner_id := fun y x =>
      if inRegion yS yE xS xE y x then
        let v := decode cmap (L.pix (y - yS) (x - xS))
        if v < c.master_loss y x ∧ v ≤ VALID_THRESHOLD_DB then S.index % 256
        else c.master_owner_id y x
      else c.master_owner_id y x }

/-- The final painting pass (composite_best_server.py lines 229-240): the
rgba buffer starts fully transparent and, layer by layer, every pixel
whose owner id equals the layer's index is painted with the layer's
display color, opaque. -/
def paintServers (srv : List SrvLayer) (owner : ℕ → ℕ → ℕ) : ℕ → ℕ → RGBA :=
  srv.foldl
    (fun acc S => fun y x =>
      if owner y x = S.index then opaquePx S.display_color else acc y x)
    (fun _ _ => transparentPx)

/-- The AttributedBestServer merge loop over the discovered layers. -/
def compositeASCanvas (cs : ColorScale) (l0 : MapLayer) (rest : List MapLayer) :
    CanvasAS :=
  (assignLayers (l0 :: rest)).foldl
    (mergeAS cs.color_map (masterH l0 rest).toNat (masterW l0 rest).toNat
      (globalBox l0 rest) (ppdLat l0) (ppdLon l0))
    initAS

/-- The final painted image of composite_best_server.py. -/
def compositeASImage (cs : ColorScale) (l0 : MapLayer) (rest : List MapLayer) :
    ℕ → ℕ → RGBA :=
  paintServers (assignLayers (l0 :: rest))
    (compositeASCanvas cs l0 rest).master_owner_id

/-! ## OverlapConsensus merge (composite_redundancy.py) -/

/-- Canvas state of composite_redundancy.py: master_loss, master_rgba and
the uint8 coverage_count grid. -/
structure CanvasRC where
  master_loss : ℕ → ℕ → ℚ
  master_rgba : ℕ → ℕ → RGBA
  coverage_count : ℕ → ℕ → ℕ

/-- The initial OverlapConsensus canvas. -/
def initRC : CanvasRC :=
  { master_loss := fun _ _ => UNDEFINED_PATH_LOSS
    master_rgba := fun _ _ => transparentPx
    coverage_count := fun _ _ => 0 }

/-- Merging one layer under OverlapConsensus (composite_redundancy.py
lines 193-225): valid_signal_mask = temp_loss <= VALID_THRESHOLD_DB; the
uint8 coverage counter gains 1 (modulo 256) at every valid pixel of the
slice, regardless of the best-signal outcome; better_signal_mask =
(temp_loss < master_slice) & valid_signal_mask drives the loss and rgba
updates exactly as in composite.py but gated by the validity threshold. -/
def mergeRC (cmap : List (Color × ℚ)) (mH mW : ℕ) (g : GeoBox) (pLat pLon : ℚ)
    (c : CanvasRC) (L : MapLayer) : CanvasRC :=
  let yS := yStartOf g pLat L
  let xS := xStartOf g pLon L
  let yE := min (yS + L.height) mH
  let xE := min (xS + L.width) mW
  { master_loss := fun y x =>
      if inRegion yS yE xS xE y x then
        let v := decode cmap (L.pix (y - yS) (x - xS))
        if v < c.master_loss y x ∧ v ≤ VALID_THRESHOLD_DB then v
        else c.master_loss y x
      else c.master_loss y x
    master_rgba := fun y x =>
      if inRegion yS yE xS xE y x then
        let v := decode cmap (L.pix (y - yS) (x - xS))
        if v < c.master_loss y x ∧ v ≤ VALID_THRESHOLD_DB then
          opaquePx (L.pix (y - yS) (x - xS))
        else c.master_rgba y x
      else c.master_rgba y x
    coverage_count := fun y x =>
      if inRegion yS yE xS xE y x then
        let v := decode cmap (L.pix (y - yS) (x - xS))
        if v ≤ VALID_THRESHOLD_DB then (c.coverage_count y x + 1) % 256
        else c.coverage_count y x
      else c.coverage_count y x }

/-- The OverlapConsensus merge loop over the discovered layers. -/
def compositeRC (cs : ColorScale) (l0 : MapLayer) (rest : List MapLayer) :
    CanvasRC :=
  (l0 :: rest).foldl
    (mergeRC cs.color_map (masterH l0 rest).toNat (masterW l0 rest).toNat
      (globalBox l0 rest) (ppdLat l0) (ppdLon l0))
    initRC

/-- The final filtering pass (composite_redundancy.py lines 230-237):
every pixel whose coverage count is below MIN_OVERLAP_COUNT is wiped to
fully transparent. -/
def applyOverlapFilter (c : CanvasRC) : ℕ → ℕ → RGBA :=
  fun y x =>
    if c.coverage_count y x < MIN_OVERLAP_COUNT then transparentPx
    else c.master_rgba y x

/-- The final image of composite_redundancy.py. -/
def compositeRCImage (cs : ColorScale) (l0 : MapLayer) (rest : List MapLayer) :
    ℕ → ℕ → RGBA :=
  applyOverlapFilter (compositeRC cs l0 rest)

/-! ## Concrete fixtures used in the claim theorems -/

/-- A first test color. -/
def cA : Color := (10, 20, 30)

/-- A second test color. -/
def cB : Color := (40, 50, 60)

/-- A 1° × 1° box with north = east = 1 and south = west = 0. -/
def box1 : GeoBox := { north := 1, south := 0, east := 1, west := 0 }

/-- A 1 × 1 layer on box1 whose single pixel has color c; its density is
one pixel per degree. -/
def layer1x1 (c : Color) : MapLayer :=
  { box := box1, height := 1, width := 1, pix := fun _ _ => c }

/-- A token whose first-field float conversion yields q (for example the
text `90.0`, which int() rejects). -/
def valTok (q : ℚ) : Token := { toFloat := some q, toInt := none }

/-- A token whose int conversion yields z (int-parseable text also floats,
so toFloat is some as well). -/
def chanTok (z : ℤ) : Token := { toFloat := some (z : ℚ), toInt := some z }

/-- A well-formed LCF row: value field then three channel fields. -/
def rowOf (db : ℚ) (r g b : ℤ) : LCFLine :=
  .row [valTok db, chanTok r, chanTok g, chanTok b]

/-! ## Helper lemmas about the dict fold -/

/-- The value recorded for color k by the last parsed line mentioning k. -/
def lastVal (es : List (ℚ × Color)) (k : Color) : Option ℚ :=
  es.foldl (fun acc e => if e.2 = k then some e.1 else acc) none

theorem dictLookup_nil (k : Color) : dictLookup [] k = none := rfl

theorem dictLookup_cons (p : Color × ℚ) (d : List (Color × ℚ)) (k : Color) :
    dictLookup (p :: d) k = if p.1 = k then some p.2 else dictLookup d k := by
  by_cases h : p.1 = k <;> simp [dictLookup, List.find?, h]

theorem dictLookup_insert (d : List (Color × ℚ)) (k : Color) (v : ℚ) (k1 : Color) :
    dictLookup (dictInsert d k v) k1 = if k = k1 then some v else dictLookup d k1 := by
  induction d with
  | nil => by_cases h : k = k1 <;> simp [dictInsert, dictLookup_cons, h]
  | cons p d ih =>
      by_cases h : p.1 = k
      · by_cases h1 : k = k1
        · simp only [dictInsert, if_pos h]
          rw [dictLookup_cons, if_pos h1, if_pos h1]
        · simp only [dictInsert, if_pos h]
          rw [dictLookup_cons, if_neg h1, if_neg h1, dictLookup_cons,
            if_neg (fun he => h1 (h.symm.trans he))]
      · by_cases h1 : p.1 = k1
        · have hk : ¬ k = k1 := fun he => h (h1.trans he.symm)
          simp only [dictInsert, if_neg h]
          rw [dictLookup_cons, if_pos h1, if_neg hk, dictLookup_cons, if_pos h1]
        · simp only [dictInsert, if_neg h]
          rw [dictLookup_cons, if_neg h1, ih]
          by_cases hk : k = k1
          · rw [if_pos hk, if_pos hk]
          · rw [if_neg hk, if_neg hk, dictLookup_cons, if_neg h1]

theorem dictLookup_fold (es : List (ℚ × Color)) :
    ∀ (d : List (Color × ℚ)) (k : Color),
      dictLookup (es.foldl (fun d e => dictInsert d e.2 e.1) d) k
        = es.foldl (fun acc e => if e.2 = k then some e.1 else acc) (dictLookup d k) := by
  induction es with
  | nil => intro d k; rfl
  | cons e tl ih =>
      intro d k
      simp only [List.foldl_cons]
      rw [ih, dictLookup_insert]

theorem mem_keys_dictInsert (d : List (Color × ℚ)) (k : Color) (v : ℚ) (a : Color)
    (h : a ∈ (dictInsert d k v).map Prod.fst) : a = k ∨ a ∈ d.map Prod.fst := by
  induction d with
  | nil => simpa [dictInsert] using h
  | cons p d ih =>
      by_cases hp : p.1 = k
      · simp only [dictInsert, if_pos hp, List.map_cons, List.mem_cons] at h
        rcases h with h | h
        · exact Or.inl h
        · exact Or.inr (by simp [h])
      · simp only [dictInsert, if_neg hp, List.map_cons, List.mem_cons] at h
        rcases h with h | h
        · exact Or.inr (by simp [h])
        · rcases ih h with h1 | h1
          · exact Or.inl h1
          · exact Or.inr (by simp [h1])

theorem nodup_keys_dictInsert (d : List (Color × ℚ)) (k : Color) (v : ℚ)
    (h : (d.map Prod.fst).Nodup) : ((dictInsert d k v).map Prod.fst).Nodup := by
  induction d with
  | nil => simp [dictInsert]
  | cons p d ih =>
      simp only [List.map_cons, List.nodup_cons] at h
      by_cases hp : p.1 = k
      · simp only [dictInsert, if_pos hp, List.map_cons, List.nodup_cons]
        exact ⟨hp ▸ h.1, h.2⟩
      · simp only [dictInsert, if_neg hp, List.map_cons, List.nodup_cons]
        refine ⟨fun hmem => ?_, ih h.2⟩
        rcases mem_keys_dictInsert d k v p.1 hmem with h1 | h1
        · exact hp h1
        · exact h.1 h1

theorem nodup_keys_fold (es : List (ℚ × Color)) :
    ∀ d : List (Color × ℚ), (d.map Prod.fst).Nodup →
      (((es.foldl (fun d e => dictInsert d e.2 e.1) d)).map Prod.fst).Nodup := by
  induction es with
  | nil => intro d h; exact h
  | cons e tl ih =>
      intro d h
      simp only [List.foldl_cons]
      exact ih _ (nodup_keys_dictInsert d e.2 e.1 h)

/-! ## Helper lemmas about the stable sort -/

theorem mem_insEntry (e a : ℚ × Color) (l : List (ℚ × Color)) :
    a ∈ insEntry e l ↔ a = e ∨ a ∈ l := by
  induction l with
  | nil => simp [insEntry]
  | cons x xs ih =>
      by_cases h : e.1 < x.1
      · simp [insEntry, h]
      · simp only [insEntry, if_neg h, List.mem_cons, ih]
        tauto

theorem insEntry_pairwise (e : ℚ × Color) (l : List (ℚ × Color))
    (h : l.Pairwise (fun a b => a.1 ≤ b.1)) :
    (insEntry e l).Pairwise (fun a b => a.1 ≤ b.1) := by
  induction l with
  | nil => simp [insEntry]
  | cons x xs ih =>
      rw [List.pairwise_cons] at h
      by_cases hlt : e.1 < x.1
      · rw [insEntry, if_pos hlt, List.pairwise_cons]
        refine ⟨fun b hb => ?_, List.pairwise_cons.mpr h⟩
        rcases List.mem_cons.mp hb with hb | hb
        · exact le_of_lt (hb ▸ hlt)
        · exact le_trans (le_of_lt hlt) (h.1 b hb)
      · rw [insEntry, if_neg hlt, List.pairwise_cons]
        refine ⟨fun b hb => ?_, ih h.2⟩
        rcases (mem_insEntry e b xs).mp hb with hb | hb
        · exact hb ▸ le_of_not_lt hlt
        · exact h.1 b hb

theorem insEntry_filter (e : ℚ × Color) (l : List (ℚ × Color)) (v : ℚ)
    (h : l.Pairwise (fun a b => a.1 ≤ b.1)) :
    (insEntry e l).filter (fun a => decide (a.1 = v))
      = l.filter (fun a => decide (a.1 = v)) ++ if e.1 = v then [e] else [] := by
  induction l with
  | nil => by_cases hv : e.1 = v <;> simp [insEntry, hv]
  | cons x xs ih =>
      rw [List.pairwise_cons] at h
      by_cases hlt : e.1 < x.1
      · rw [insEntry, if_pos hlt]
        by_cases hv : e.1 = v
        · have hnil : (x :: xs).filter (fun a => decide (a.1 = v)) = [] := by
            rw [List.filter_eq_nil_iff]
            intro a ha
            have hxa : x.1 ≤ a.1 := by
              rcases List.mem_cons.mp ha with ha | ha
              · exact le_of_eq (ha ▸ rfl)
              · exact h.1 a ha
            have : v < a.1 := lt_of_lt_of_le (hv ▸ hlt) hxa
            simp [ne_of_gt this]
          rw [List.filter_cons, if_pos (by simp [hv]), hnil]
          simp [hv]
        · rw [List.filter_cons, if_neg (by simp [hv])]
          simp [hv]
      · rw [insEntry, if_neg hlt, List.filter_cons, List.filter_cons]
        by_cases hx : x.1 = v
        · rw [if_pos (by simp [hx]), if_pos (by simp [hx]), ih h.2, List.cons_append]
        · rw [if_neg (by simp [hx]), if_neg (by simp [hx]), ih h.2]

theorem sortEntries_fold (l : List (ℚ × Color)) :
    ∀ acc : List (ℚ × Color), acc.Pairwise (fun a b => a.1 ≤ b.1) →
      (l.foldl (fun a e => insEntry e a) acc).Pairwise (fun a b => a.1 ≤ b.1)
        ∧ ∀ v : ℚ,
            (l.foldl (fun a e => insEntry e a) acc).filter (fun a => decide (a.1 = v))
              = acc.filter (fun a => decide (a.1 = v))
                ++ l.filter (fun a => decide (a.1 = v)) := by
  induction l with
  | nil => intro acc h; exact ⟨h, fun v => by simp⟩
  | cons e tl ih =>
      intro acc h
      obtain ⟨hp, hf⟩ := ih (insEntry e acc) (insEntry_pairwise e acc h)
      refine ⟨hp, fun v => ?_⟩
      simp only [List.foldl_cons]
      rw [hf v, insEntry_filter e acc v h, List.append_assoc, List.filter_cons]
      by_cases hv : e.1 = v <;> simp [hv]

theorem insEntry_perm (e : ℚ × Color) (l : List (ℚ × Color)) :
    (insEntry e l).Perm (e :: l) := by
  induction l with
  | nil => simp [insEntry]
  | cons x xs ih =>
      by_cases h : e.1 < x.1
      · rw [insEntry, if_pos h]
      · rw [insEntry, if_neg h]
        exact ((ih.cons x).trans (List.Perm.swap e x xs))

theorem sortEntries_fold_perm (l : List (ℚ × Color)) :
    ∀ acc : List (ℚ × Color),
      (l.foldl (fun a e => insEntry e a) acc).Perm (l ++ acc) := by
  induction l with
  | nil => intro acc; simp
  | cons e tl ih =>
      intro acc
      simp only [List.foldl_cons]
      refine ((ih (insEntry e acc)).trans ?_).trans List.perm_middle
      exact (insEntry_perm e acc).append_left tl

theorem sortEntries_perm (l : List (ℚ × Color)) : (sortEntries l).Perm l := by
  simpa [sortEntries] using sortEntries_fold_perm l []

/-! ## Pointwise characterizations of the three merges -/

theorem decode_of_lookup_none (cmap : List (Color × ℚ)) (c : Color)
    (h : dictLookup cmap c = none) : decode cmap c = UNDEFINED_PATH_LOSS := by
  simp [decode, h]

theorem decode_of_lookup_some (cmap : List (Color × ℚ)) (c : Color) (v : ℚ)
    (h : dictLookup cmap c = some v) : decode cmap c = v := by
  simp [decode, h]

theorem lookup_mem_values (cmap : List (Color × ℚ)) (c : Color) (v : ℚ)
    (h : dictLookup cmap c = some v) : ∃ p ∈ cmap, p.2 = v := by
  rw [dictLookup, Option.map_eq_some'] at h
  obtain ⟨p, hp, hv⟩ := h
  exact ⟨p, List.mem_of_find?_eq_some hp, hv⟩

theorem mergeBS_loss_eq (cmap : List (Color × ℚ)) (mH mW : ℕ) (g : GeoBox)
    (pLat pLon : ℚ) (c : CanvasBS) (L : MapLayer) (y x : ℕ) :
    (mergeBS cmap mH mW g pLat pLon c L).master_loss y x =
      if inRegion (yStartOf g pLat L) (min (yStartOf g pLat L + L.height) mH)
          (xStartOf g pLon L) (min (xStartOf g pLon L + L.width) mW) y x
          ∧ decode cmap (L.pix (y - yStartOf g pLat L) (x - xStartOf g pLon L))
              < c.master_loss y x
          ∧ decode cmap (L.pix (y - yStartOf g pLat L) (x - xStartOf g pLon L))
              ≠ UNDEFINED_PATH_LOSS then
        decode cmap (L.pix (y - yStartOf g pLat L) (x - xStartOf g pLon L))
      else c.master_loss y x := by
  simp only [mergeBS]
  by_cases h1 : inRegion (yStartOf g pLat L) (min (yStartOf g pLat L + L.height) mH)
      (xStartOf g pLon L) (min (xStartOf g pLon L + L.width) mW) y x
  · by_cases h2 : decode cmap (L.pix (y - yStartOf g pLat L) (x - xStartOf g pLon L))
          < c.master_loss y x
        ∧ decode cmap (L.pix (y - yStartOf g pLat L) (x - xStartOf g pLon L))
          ≠ UNDEFINED_PATH_LOSS
    · simp [h1, h2]
    · simp [h1, h2]
  · simp [h1]

theorem mergeBS_rgba_eq (cmap : List (Color × ℚ)) (mH mW : ℕ) (g : GeoBox)
    (pLat pLon : ℚ) (c : CanvasBS) (L : MapLayer) (y x : ℕ) :
    (mergeBS cmap mH mW g pLat pLon c L).master_rgba y x =
      if inRegion (yStartOf g pLat L) (min (yStartOf g pLat L + L.height) mH)
          (xStartOf g pLon L) (min (xStartOf g pLon L + L.width) mW) y x
          ∧ decode cmap (L.pix (y - yStartOf g pLat L) (x - xStartOf g pLon L))
              < c.master_loss y x
          ∧ decode cmap (L.pix (y - yStartOf g pLat L) (x - xStartOf g pLon L))
              ≠ UNDEFINED_PATH_LOSS then
        opaquePx (L.pix (y - yStartOf g pLat L) (x - xStartOf g pLon L))
      else c.master_rgba y x := by
  simp only [mergeBS]
  by_cases h1 : inRegion (yStartOf g pLat L) (min (yStartOf g pLat L + L.height) mH)
      (xStartOf g pLon L) (min (xStartOf g pLon L + L.width) mW) y x
  · by_cases h2 : decode cmap (L.pix (y - yStartOf g pLat L) (x - xStartOf g pLon L))
          < c.master_loss y x
        ∧ decode cmap (L.pix (y - yStartOf g pLat L) (x - xStartOf g pLon L))
          ≠ UNDEFINED_PATH_LOSS
    · simp [h1, h2]
    · simp [h1, h2]
  · simp [h1]

theorem mergeAS_loss_eq (cmap : List (Color × ℚ)) (mH mW : ℕ) (g : GeoBox)
    (pLat pLon : ℚ) (c : CanvasAS) (S : SrvLayer) (y x : ℕ) :
    (mergeAS cmap mH mW g pLat pLon c S).master_loss y x =
      if inRegion (yStartOf g pLat S.layer) (min (yStartOf g pLat S.layer + S.layer.height) mH)
          (xStartOf g pLon S.layer) (min (xStartOf g pLon S.layer + S.layer.width) mW) y x
          ∧ decode cmap (S.layer.pix (y - yStartOf g pLat S.layer) (x - xStartOf g pLon S.layer))
              < c.master_loss y x
          ∧ decode cmap (S.layer.pix (y - yStartOf g pLat S.layer) (x - xStartOf g pLon S.layer))
              ≤ VALID_THRESHOLD_DB then
        decode cmap (S.layer.pix (y - yStartOf g pLat S.layer) (x - xStartOf g pLon S.layer))
      else c.master_loss y x := by
  simp only [mergeAS]
  by_cases h1 : inRegion (yStartOf g pLat S.layer)
      (min (yStartOf g pLat S.layer + S.layer.height) mH) (xStartOf g pLon S.layer)
      (min (xStartOf g pLon S.layer + S.layer.width) mW) y x
  · by_cases h2 : decode cmap
          (S.layer.pix (y - yStartOf g pLat S.layer) (x - xStartOf g pLon S.layer))
          < c.master_loss y x
        ∧ decode cmap (S.layer.pix (y - yStartOf g pLat S.layer) (x - xStartOf g pLon S.layer))
          ≤ VALID_THRESHOLD_DB
    · simp [h1, h2]
    · simp [h1, h2]
  · simp [h1]

theorem mergeAS_owner_eq (cmap : List (Color × ℚ)) (mH mW : ℕ) (g : GeoBox)
    (pLat pLon : ℚ) (c : CanvasAS) (S : SrvLayer) (y x : ℕ) :
    (mergeAS cmap mH mW g pLat pLon c S).master_owner_id y x =
      if inRegion (yStartOf g pLat S.layer) (min (yStartOf g pLat S.layer + S.layer.height) mH)
          (xStartOf g pLon S.layer) (min (xStartOf g pLon S.layer + S.layer.width) mW) y x
          ∧ decode cmap (S.layer.pix (y - yStartOf g pLat S.layer) (x - xStartOf g pLon S.layer))
              < c.master_loss y x
          ∧ decode cmap (S.layer.pix (y - yStartOf g pLat S.layer) (x - xStartOf g pLon S.layer))
              ≤ VALID_THRESHOLD_DB then
        S.index % 256
      else c.master_owner_id y x := by
  simp only [mergeAS]
  by_cases h1 : inRegion (yStartOf g pLat S.layer)
      (min (yStartOf g pLat S.layer + S.layer.height) mH) (xStartOf g pLon S.layer)
      (min (xStartOf g pLon S.layer + S.layer.width) mW) y x
  · by_cases h2 : decode cmap
          (S.layer.pix (y - yStartOf g pLat S.layer) (x - xStartOf g pLon S.layer))
          < c.master_loss y x
        ∧ decode cmap (S.layer.pix (y - yStartOf g pLat S.layer) (x - xStartOf g pLon S.layer))
          ≤ VALID_THRESHOLD_DB
    · simp [h1, h2]
    · simp [h1, h2]
  · simp [h1]

theorem mergeRC_loss_eq (cmap : List (Color × ℚ)) (mH mW : ℕ) (g : GeoBox)
    (pLat pLon : ℚ) (c : CanvasRC) (L : MapLayer) (y x : ℕ) :
    (mergeRC cmap mH mW g pLat pLon c L).master_loss y x =
      if inRegion (yStartOf g pLat L) (min (yStartOf g pLat L + L.height) mH)
          (xStartOf g pLon L) (min (xStartOf g pLon L + L.width) mW) y x
          ∧ decode cmap (L.pix (y - yStartOf g pLat L) (x - xStartOf g pLon L))
              < c.master_loss y x
          ∧ decode cmap (L.pix (y - yStartOf g pLat L) (x - xStartOf g pLon L))
              ≤ VALID_THRESHOLD_DB then
        decode cmap (L.pix (y - yStartOf g pLat L) (x - xStartOf g pLon L))
      else c.master_loss y x := by
  simp only [mergeRC]
  by_cases h1 : inRegion (yStartOf g pLat L) (min (yStartOf g pLat L + L.height) mH)
      (xStartOf g pLon L) (min (xStartOf g pLon L + L.width) mW) y x
  · by_cases h2 : decode cmap (L.pix (y - yStartOf g pLat L) (x - xStartOf g pLon L))
          < c.master_loss y x
        ∧ decode cmap (L.pix (y - yStartOf g pLat L) (x - xStartOf g pLon L))
          ≤ VALID_THRESHOLD_DB
    · simp [h1, h2]
    · simp [h1, h2]
  · simp [h1]

theorem mergeRC_rgba_eq (cmap : List (Color × ℚ)) (mH mW : ℕ) (g : GeoBox)
    (pLat pLon : ℚ) (c : CanvasRC) (L : MapLayer) (y x : ℕ) :
    (mergeRC cmap mH mW g pLat pLon c L).master_rgba y x =
      if inRegion (yStartOf g pLat L) (min (yStartOf g pLat L + L.height) mH)
          (xStartOf g pLon L) (min (xStartOf g pLon L + L.width) mW) y x
          ∧ decode cmap (L.pix (y - yStartOf g pLat L) (x - xStartOf g pLon L))
              < c.master_loss y x
          ∧ decode cmap (L.pix (y - yStartOf g pLat L) (x - xStartOf g pLon L))
              ≤ VALID_THRESHOLD_DB then
        opaquePx (L.pix (y - yStartOf g pLat L) (x - xStartOf g pLon L))
      else c.master_rgba y x := by
  simp only [mergeRC]
  by_cases h1 : inRegion (yStartOf g pLat L) (min (yStartOf g pLat L + L.height) mH)
      (xStartOf g pLon L) (min (xStartOf g pLon L + L.width) mW) y x
  · by_cases h2 : decode cmap (L.pix (y - yStartOf g pLat L) (x - xStartOf g pLon L))
          < c.master_loss y x
        ∧ decode cmap (L.pix (y - yStartOf g pLat L) (x - xStartOf g pLon L))
          ≤ VALID_THRESHOLD_DB
    · simp [h1, h2]
    · simp [h1, h2]
  · simp [h1]

theorem mergeRC_count_eq (cmap : List (Color × ℚ)) (mH mW : ℕ) (g : GeoBox)
    (pLat pLon : ℚ) (c : CanvasRC) (L : MapLayer) (y x : ℕ) :
    (mergeRC cmap mH mW g pLat pLon c L).coverage_count y x =
      if inRegion (yStartOf g pLat L) (min (yStartOf g pLat L + L.height) mH)
          (xStartOf g pLon L) (min (xStartOf g pLon L + L.width) mW) y x
          ∧ decode cmap (L.pix (y - yStartOf g pLat L) (x - xStartOf g pLon L))
              ≤ VALID_THRESHOLD_DB then
        (c.coverage_count y x + 1) % 256
      else c.coverage_count y x := by
  simp only [mergeRC]
  by_cases h1 : inRegion (yStartOf g pLat L) (min (yStartOf g pLat L + L.height) mH)
      (xStartOf g pLon L) (min (xStartOf g pLon L + L.width) mW) y x
  · by_cases h2 : decode cmap (L.pix (y - yStartOf g pLat L) (x - xStartOf g pLon L))
        ≤ VALID_THRESHOLD_DB
    · simp [h1, h2]
    · simp [h1, h2]
  · simp [h1]

/-! ## Evaluation lemmas for the unit fixtures -/

theorem ppdLat_unit (c : Color) : ppdLat (layer1x1 c) = 1 := by
  norm_num [ppdLat, layer1x1, box1]

theorem ppdLon_unit (c : Color) : ppdLon (layer1x1 c) = 1 := by
  norm_num [ppdLon, layer1x1, box1]

theorem globalBox_single (L : MapLayer) : globalBox L [] = L.box := rfl

theorem globalBox_pair (a b : Color) : globalBox (layer1x1 a) [layer1x1 b] = box1 := by
  simp [globalBox, layer1x1, box1]

theorem masterH_unit (c : Color) (rest : List MapLayer)
    (h : globalBox (layer1x1 c) rest = box1) : (masterH (layer1x1 c) rest).toNat = 1 := by
  rw [masterH, h, ppdLat_unit]
  norm_num [box1, truncQ]

theorem masterW_unit (c : Color) (rest : List MapLayer)
    (h : globalBox (layer1x1 c) rest = box1) : (masterW (layer1x1 c) rest).toNat = 1 := by
  rw [masterW, h, ppdLon_unit]
  norm_num [box1, truncQ]

theorem masterH_pair (a b : Color) : (masterH (layer1x1 a) [layer1x1 b]).toNat = 1 :=
  masterH_unit a _ (globalBox_pair a b)

theorem masterW_pair (a b : Color) : (masterW (layer1x1 a) [layer1x1 b]).toNat = 1 :=
  masterW_unit a _ (globalBox_pair a b)

theorem masterH_single (a : Color) : (masterH (layer1x1 a) []).toNat = 1 :=
  masterH_unit a [] (globalBox_single _)

theorem masterW_single (a : Color) : (masterW (layer1x1 a) []).toNat = 1 :=
  masterW_unit a [] (globalBox_single _)

theorem layer1x1_pix (c : Color) (a b : ℕ) : (layer1x1 c).pix a b = c := rfl

theorem layer1x1_height (c : Color) : (layer1x1 c).height = 1 := rfl

theorem layer1x1_width (c : Color) : (layer1x1 c).width = 1 := rfl

theorem yStartOf_unit (c : Color) : yStartOf box1 1 (layer1x1 c) = 0 := by
  norm_num [yStartOf, box1, layer1x1, truncQ]

theorem xStartOf_unit (c : Color) : xStartOf box1 1 (layer1x1 c) = 0 := by
  norm_num [xStartOf, box1, layer1x1, truncQ]

theorem compositeBS_pair (cs : ColorScale) (a b : Color) :
    compositeBS cs (layer1x1 a) [layer1x1 b] =
      mergeBS cs.color_map 1 1 box1 1 1
        (mergeBS cs.color_map 1 1 box1 1 1 initBS (layer1x1 a)) (layer1x1 b) := by
  simp only [compositeBS, List.foldl_cons, List.foldl_nil, globalBox_pair,
    masterH_pair, masterW_pair, ppdLat_unit, ppdLon_unit]

theorem compositeRC_pair (cs : ColorScale) (a b : Color) :
    compositeRC cs (layer1x1 a) [layer1x1 b] =
      mergeRC cs.color_map 1 1 box1 1 1
        (mergeRC cs.color_map 1 1 box1 1 1 initRC (layer1x1 a)) (layer1x1 b) := by
  simp only [compositeRC, List.foldl_cons, List.foldl_nil, globalBox_pair,
    masterH_pair, masterW_pair, ppdLat_unit, ppdLon_unit]

theorem compositeRC_single (cs : ColorScale) (a : Color) :
    compositeRC cs (layer1x1 a) [] =
      mergeRC cs.color_map 1 1 box1 1 1 initRC (layer1x1 a) := by
  simp only [compositeRC, List.foldl_cons, List.foldl_nil, globalBox_single,
    masterH_single, masterW_single, ppdLat_unit, ppdLon_unit]
  rfl

theorem assignLayers_single (L : MapLayer) :
    assignLayers [L] = [⟨L, 1, (255, 0, 0)⟩] := by
  simp [assignLayers, SERVER_PALETTE]

theorem compositeASCanvas_single (cs : ColorScale) (a : Color) :
    compositeASCanvas cs (layer1x1 a) [] =
      mergeAS cs.color_map 1 1 box1 1 1 initAS ⟨layer1x1 a, 1, (255, 0, 0)⟩ := by
  simp only [compositeASCanvas, assignLayers_single, List.foldl_cons, List.foldl_nil,
    globalBox_single, masterH_single, masterW_single, ppdLat_unit, ppdLon_unit]
  rfl

theorem mergeBS_unit_loss (cmap : List (Color × ℚ)) (cv : CanvasBS) (c : Color) :
    (mergeBS cmap 1 1 box1 1 1 cv (layer1x1 c)).master_loss 0 0 =
      if decode cmap c < cv.master_loss 0 0 ∧ decode cmap c ≠ UNDEFINED_PATH_LOSS
      then decode cmap c else cv.master_loss 0 0 := by
  rw [mergeBS_loss_eq]
  simp [yStartOf_unit, xStartOf_unit, layer1x1_pix, layer1x1_height, layer1x1_width, inRegion]

theorem mergeBS_unit_rgba (cmap : List (Color × ℚ)) (cv : CanvasBS) (c : Color) :
    (mergeBS cmap 1 1 box1 1 1 cv (layer1x1 c)).master_rgba 0 0 =
      if decode cmap c < cv.master_loss 0 0 ∧ decode cmap c ≠ UNDEFINED_PATH_LOSS
      then opaquePx c else cv.master_rgba 0 0 := by
  rw [mergeBS_rgba_eq]
  simp [yStartOf_unit, xStartOf_unit, layer1x1_pix, layer1x1_height, layer1x1_width, inRegion]

theorem mergeAS_unit_loss (cmap : List (Color × ℚ)) (cv : CanvasAS) (c : Color)
    (i : ℕ) (col : Color) :
    (mergeAS cmap 1 1 box1 1 1 cv ⟨layer1x1 c, i, col⟩).master_loss 0 0 =
      if decode cmap c < cv.master_loss 0 0 ∧ decode cmap c ≤ VALID_THRESHOLD_DB
      then decode cmap c else cv.master_loss 0 0 := by
  rw [mergeAS_loss_eq]
  simp [yStartOf_unit, xStartOf_unit, layer1x1_pix, layer1x1_height, layer1x1_width, inRegion]

theorem mergeAS_unit_owner (cmap : List (Color × ℚ)) (cv : CanvasAS) (c : Color)
    (i : ℕ) (col : Color) :
    (mergeAS cmap 1 1 box1 1 1 cv ⟨layer1x1 c, i, col⟩).master_owner_id 0 0 =
      if decode cmap c < cv.master_loss 0 0 ∧ decode cmap c ≤ VALID_THRESHOLD_DB
      then i % 256 else cv.master_owner_id 0 0 := by
  rw [mergeAS_owner_eq]
  simp [yStartOf_unit, xStartOf_unit, layer1x1_pix, layer1x1_height, layer1x1_width, inRegion]

theorem mergeRC_unit_loss (cmap : List (Color × ℚ)) (cv : CanvasRC) (c : Color) :
    (mergeRC cmap 1 1 box1 1 1 cv (layer1x1 c)).master_loss 0 0 =
      if decode cmap c < cv.master_loss 0 0 ∧ decode cmap c ≤ VALID_THRESHOLD_DB
      then decode cmap c else cv.master_loss 0 0 := by
  rw [mergeRC_loss_eq]
  simp [yStartOf_unit, xStartOf_unit, layer1x1_pix, layer1x1_height, layer1x1_width, inRegion]

theorem mergeRC_unit_rgba (cmap : List (Color × ℚ)) (cv : CanvasRC) (c : Color) :
    (mergeRC cmap 1 1 box1 1 1 cv (layer1x1 c)).master_rgba 0 0 =
      if decode cmap c < cv.master_loss 0 0 ∧ decode cmap c ≤ VALID_THRESHOLD_DB
      then opaquePx c else cv.master_rgba 0 0 := by
  rw [mergeRC_rgba_eq]
  simp [yStartOf_unit, xStartOf_unit, layer1x1_pix, layer1x1_height, layer1x1_width, inRegion]

theorem mergeRC_unit_count (cmap : List (Color × ℚ)) (cv : CanvasRC) (c : Color) :
    (mergeRC cmap 1 1 box1 1 1 cv (layer1x1 c)).coverage_count 0 0 =
      if decode cmap c ≤ VALID_THRESHOLD_DB
      then (cv.coverage_count 0 0 + 1) % 256 else cv.coverage_count 0 0 := by
  rw [mergeRC_count_eq]
  simp [yStartOf_unit, xStartOf_unit, layer1x1_pix, layer1x1_height, layer1x1_width, inRegion]

/-! ## Single-layer and replicated-layer evaluation lemmas -/

theorem masterH_self (L : MapLayer) (hns : L.box.south < L.box.north) :
    (masterH L []).toNat = L.height := by
  have hne : L.box.north - L.box.south ≠ 0 := sub_ne_zero.mpr (ne_of_gt hns)
  rw [masterH, globalBox_single, ppdLat, mul_comm, div_mul_cancel₀ _ hne, truncQ,
    if_pos (by positivity), Int.floor_natCast]
  exact Int.toNat_natCast L.height

theorem masterW_self (L : MapLayer) (hew : L.box.west < L.box.east) :
    (masterW L []).toNat = L.width := by
  have hne : L.box.east - L.box.west ≠ 0 := sub_ne_zero.mpr (ne_of_gt hew)
  rw [masterW, globalBox_single, ppdLon, mul_comm, div_mul_cancel₀ _ hne, truncQ,
    if_pos (by positivity), Int.floor_natCast]
  exact Int.toNat_natCast L.width

theorem yStartOf_self (L : MapLayer) (pLat : ℚ) : yStartOf L.box pLat L = 0 := by
  rw [yStartOf, sub_self, zero_mul, truncQ, if_pos le_rfl, Int.floor_zero]
  rfl

theorem xStartOf_self (L : MapLayer) (pLon : ℚ) : xStartOf L.box pLon L = 0 := by
  rw [xStartOf, sub_self, zero_mul, truncQ, if_pos le_rfl, Int.floor_zero]
  rfl

theorem compositeBS_single (cs : ColorScale) (L : MapLayer) :
    compositeBS cs L [] =
      mergeBS cs.color_map (masterH L []).toNat (masterW L []).toNat L.box
        (ppdLat L) (ppdLon L) initBS L := by
  simp only [compositeBS, List.foldl_cons, List.foldl_nil, globalBox_single]

theorem globalBox_rep (n : ℕ) :
    globalBox (layer1x1 cA) (List.replicate n (layer1x1 cA)) = box1 := by
  induction n with
  | zero => rfl
  | succ k ih =>
      rw [List.replicate_succ]
      simp only [globalBox, List.foldl_cons, max_self, min_self] at ih ⊢
      exact ih

theorem masterH_rep :
    (masterH (layer1x1 cA) (List.replicate 255 (layer1x1 cA))).toNat = 1 :=
  masterH_unit _ _ (globalBox_rep 255)

theorem masterW_rep :
    (masterW (layer1x1 cA) (List.replicate 255 (layer1x1 cA))).toNat = 1 :=
  masterW_unit _ _ (globalBox_rep 255)

theorem decode_cA90 : decode [(cA, 90)] cA = 90 := rfl

theorem countRC_rep (n : ℕ) :
    ∀ cv : CanvasRC, cv.coverage_count 0 0 < 256 →
      ((List.replicate n (layer1x1 cA)).foldl
          (mergeRC [(cA, 90)] 1 1 box1 1 1) cv).coverage_count 0 0
        = (cv.coverage_count 0 0 + n) % 256 := by
  induction n with
  | zero =>
      intro cv h
      simpa using (Nat.mod_eq_of_lt h).symm
  | succ k ih =>
      intro cv h
      have hc : (mergeRC [(cA, 90)] 1 1 box1 1 1 cv (layer1x1 cA)).coverage_count 0 0
          = (cv.coverage_count 0 0 + 1) % 256 := by
        rw [mergeRC_unit_count, if_pos]
        rw [decode_cA90]
        norm_num [VALID_THRESHOLD_DB]
      rw [List.replicate_succ, List.foldl_cons,
        ih _ (by rw [hc]; exact Nat.mod_lt _ (by norm_num)), hc]
      omega

theorem compositeRC_rep_count :
    (compositeRC ⟨[(cA, 90)], []⟩ (layer1x1 cA)
        (List.replicate 255 (layer1x1 cA))).coverage_count 0 0 = 0 := by
  have h : compositeRC ⟨[(cA, 90)], []⟩ (layer1x1 cA) (List.replicate 255 (layer1x1 cA))
      = (List.replicate 256 (layer1x1 cA)).foldl
          (mergeRC [(cA, 90)] 1 1 box1 1 1) initRC := by
    simp only [compositeRC, globalBox_rep, masterH_rep, masterW_rep, ppdLat_unit,
      ppdLon_unit]
    rw [← List.replicate_succ]
  rw [h, countRC_rep 256 initRC (by norm_num [initRC])]
  norm_num [initRC]

/-! ## Claim theorems -/

/-- C1: BestSignal merge rule: for every pixel in a layer's overlap region,
the canvas value and visual are overwritten (with the incoming value and
the incoming layer's opaque color) exactly when the incoming decoded value
is strictly less than the current canvas value and is not the UNDEFINED
sentinel; at every other pixel the canvas is unchanged.  When two layers
decode to exactly the same value at a pixel (here 100.0), the layer
processed first in discovery order keeps the pixel. -/
theorem best_signal_merge_rule :
    (∀ (cmap : List (Color × ℚ)) (mH mW : ℕ) (g : GeoBox) (pLat pLon : ℚ)
        (c : CanvasBS) (L : MapLayer) (y x : ℕ),
      (mergeBS cmap mH mW g pLat pLon c L).master_loss y x =
        (if inRegion (yStartOf g pLat L) (min (yStartOf g pLat L + L.height) mH)
              (xStartOf g pLon L) (min (xStartOf g pLon L + L.width) mW) y x
            ∧ decode cmap (L.pix (y - yStartOf g pLat L) (x - xStartOf g pLon L))
                < c.master_loss y x
            ∧ decode cmap (L.pix (y - yStartOf g pLat L) (x - xStartOf g pLon L))
                ≠ UNDEFINED_PATH_LOSS then
          decode cmap (L.pix (y - yStartOf g pLat L) (x - xStartOf g pLon L))
        else c.master_loss y x) ∧
      (mergeBS cmap mH mW g pLat pLon c L).master_rgba y x =
        (if inRegion (yStartOf g pLat L) (min (yStartOf g pLat L + L.height) mH)
              (xStartOf g pLon L) (min (xStartOf g pLon L + L.width) mW) y x
            ∧ decode cmap (L.pix (y - yStartOf g pLat L) (x - xStartOf g pLon L))
                < c.master_loss y x
            ∧ decode cmap (L.pix (y - yStartOf g pLat L) (x - xStartOf g pLon L))
                ≠ UNDEFINED_PATH_LOSS then
          opaquePx (L.pix (y - yStartOf g pLat L) (x - xStartOf g pLon L))
        else c.master_rgba y x)) ∧
    ((compositeBS ⟨[(cA, 100), (cB, 100)], []⟩ (layer1x1 cA) [layer1x1 cB]).master_loss 0 0
        = 100 ∧
     (compositeBS ⟨[(cA, 100), (cB, 100)], []⟩ (layer1x1 cA) [layer1x1 cB]).master_rgba 0 0
        = opaquePx cA) := by
  have d1 : decode [(cA, 100), (cB, 100)] cA = 100 := rfl
  have d2 : decode [(cA, 100), (cB, 100)] cB = 100 := rfl
  have hL : (mergeBS [(cA, 100), (cB, 100)] 1 1 box1 1 1 initBS
      (layer1x1 cA)).master_loss 0 0 = 100 := by
    rw [mergeBS_unit_loss, d1, if_pos (by norm_num [initBS, UNDEFINED_PATH_LOSS])]
  have hR : (mergeBS [(cA, 100), (cB, 100)] 1 1 box1 1 1 initBS
      (layer1x1 cA)).master_rgba 0 0 = opaquePx cA := by
    rw [mergeBS_unit_rgba, d1, if_pos (by norm_num [initBS, UNDEFINED_PATH_LOSS])]
  refine ⟨fun cmap mH mW g pLat pLon c L y x =>
    ⟨mergeBS_loss_eq cmap mH mW g pLat pLon c L y x,
     mergeBS_rgba_eq cmap mH mW g pLat pLon c L y x⟩, ?_, ?_⟩
  · rw [compositeBS_pair, mergeBS_unit_loss, d2, hL,
      if_neg (by norm_num [UNDEFINED_PATH_LOSS])]
  · rw [compositeBS_pair, mergeBS_unit_rgba, d2, hL,
      if_neg (by norm_num [UNDEFINED_PATH_LOSS])]
    exact hR

/-- C2: a pixel whose color is absent from the lookup table decodes to the
UNDEFINED sentinel, and under each of the three merge policies such a
pixel never overwrites the canvas best value, never claims ownership, and
never increments the overlap counter. -/
theorem undecoded_pixels_never_win :
    ∀ (cmap : List (Color × ℚ)) (c : Color), dictLookup cmap c = none →
      decode cmap c = UNDEFINED_PATH_LOSS ∧
      (∀ (mH mW : ℕ) (g : GeoBox) (pLat pLon : ℚ) (cb : CanvasBS) (L : MapLayer)
          (y x : ℕ), L.pix (y - yStartOf g pLat L) (x - xStartOf g pLon L) = c →
        (mergeBS cmap mH mW g pLat pLon cb L).master_loss y x = cb.master_loss y x ∧
        (mergeBS cmap mH mW g pLat pLon cb L).master_rgba y x = cb.master_rgba y x) ∧
      (∀ (mH mW : ℕ) (g : GeoBox) (pLat pLon : ℚ) (ca : CanvasAS) (S : SrvLayer)
          (y x : ℕ),
          S.layer.pix (y - yStartOf g pLat S.layer) (x - xStartOf g pLon S.layer) = c →
        (mergeAS cmap mH mW g pLat pLon ca S).master_loss y x = ca.master_loss y x ∧
        (mergeAS cmap mH mW g pLat pLon ca S).master_owner_id y x
          = ca.master_owner_id y x) ∧
      (∀ (mH mW : ℕ) (g : GeoBox) (pLat pLon : ℚ) (cr : CanvasRC) (L : MapLayer)
          (y x : ℕ), L.pix (y - yStartOf g pLat L) (x - xStartOf g pLon L) = c →
        (mergeRC cmap mH mW g pLat pLon cr L).master_loss y x = cr.master_loss y x ∧
        (mergeRC cmap mH mW g pLat pLon cr L).master_rgba y x = cr.master_rgba y x ∧
        (mergeRC cmap mH mW g pLat pLon cr L).coverage_count y x
          = cr.coverage_count y x) := by
  intro cmap c h
  have hd : decode cmap c = UNDEFINED_PATH_LOSS := decode_of_lookup_none cmap c h
  have hno : ¬ UNDEFINED_PATH_LOSS ≤ VALID_THRESHOLD_DB := by
    norm_num [UNDEFINED_PATH_LOSS, VALID_THRESHOLD_DB]
  refine ⟨hd, ?_, ?_, ?_⟩
  · intro mH mW g pLat pLon cb L y x hpix
    constructor
    · rw [mergeBS_loss_eq, hpix, hd]
      simp
    · rw [mergeBS_rgba_eq, hpix, hd]
      simp
  · intro mH mW g pLat pLon ca S y x hpix
    constructor
    · rw [mergeAS_loss_eq, hpix, hd]
      simp [hno]
    · rw [mergeAS_owner_eq, hpix, hd]
      simp [hno]
  · intro mH mW g pLat pLon cr L y x hpix
    refine ⟨?_, ?_, ?_⟩
    · rw [mergeRC_loss_eq, hpix, hd]
      simp [hno]
    · rw [mergeRC_rgba_eq, hpix, hd]
      simp [hno]
    · rw [mergeRC_count_eq, hpix, hd]
      simp [hno]

/-- Witness for C2 at a concrete table and color: cB is absent from the
single-entry table, decodes to the sentinel, and a merge of a 1 × 1 layer
of color cB leaves each canvas untouched at its pixel. -/
theorem undecoded_pixels_never_win_witness :
    dictLookup [(cA, 100)] cB = none ∧
    decode [(cA, 100)] cB = UNDEFINED_PATH_LOSS ∧
    (mergeBS [(cA, 100)] 1 1 box1 1 1 initBS (layer1x1 cB)).master_loss 0 0
      = initBS.master_loss 0 0 ∧
    (mergeAS [(cA, 100)] 1 1 box1 1 1 initAS ⟨layer1x1 cB, 1, (255, 0, 0)⟩).master_owner_id
        0 0 = initAS.master_owner_id 0 0 ∧
    (mergeRC [(cA, 100)] 1 1 box1 1 1 initRC (layer1x1 cB)).coverage_count 0 0
      = initRC.coverage_count 0 0 := by
  have h : dictLookup [(cA, 100)] cB = none := rfl
  have main := undecoded_pixels_never_win [(cA, 100)] cB h
  exact ⟨h, main.1,
    (main.2.1 1 1 box1 1 1 initBS (layer1x1 cB) 0 0 rfl).1,
    (main.2.2.1 1 1 box1 1 1 initAS ⟨layer1x1 cB, 1, (255, 0, 0)⟩ 0 0 rfl).2,
    (main.2.2.2 1 1 box1 1 1 initRC (layer1x1 cB) 0 0 rfl).2.2⟩

/-- C3: OverlapConsensus: for every layer, every pixel in its overlap
region whose decoded value meets the validity threshold has its per-pixel
overlap counter incremented by one (stated below a uint8 counter away from
its wrap point, see the numerical claim for the wrap), whether or not that
layer's value becomes the recorded best; after the merges, every pixel
whose counter is below MIN_OVERLAP_COUNT is set fully transparent.  A
pixel covered by exactly one layer at 90.0 is transparent in the final
output despite a recorded best value, and a pixel covered by two layers at
90.0 and 140.0 is opaque with the 90.0 layer's color. -/
theorem overlap_consensus_rule :
    (∀ (cmap : List (Color × ℚ)) (mH mW : ℕ) (g : GeoBox) (pLat pLon : ℚ)
        (c : CanvasRC) (L : MapLayer) (y x : ℕ),
      inRegion (yStartOf g pLat L) (min (yStartOf g pLat L + L.height) mH)
          (xStartOf g pLon L) (min (xStartOf g pLon L + L.width) mW) y x →
      decode cmap (L.pix (y - yStartOf g pLat L) (x - xStartOf g pLon L))
          ≤ VALID_THRESHOLD_DB →
      c.coverage_count y x < 255 →
      (mergeRC cmap mH mW g pLat pLon c L).coverage_count y x
        = c.coverage_count y x + 1) ∧
    (∀ (c : CanvasRC) (y x : ℕ), c.coverage_count y x < MIN_OVERLAP_COUNT →
      applyOverlapFilter c y x = transparentPx) ∧
    (compositeRCImage ⟨[(cA, 90)], []⟩ (layer1x1 cA) [] 0 0 = transparentPx ∧
     (compositeRC ⟨[(cA, 90)], []⟩ (layer1x1 cA) []).master_loss 0 0 = 90) ∧
    compositeRCImage ⟨[(cA, 90), (cB, 140)], []⟩ (layer1x1 cA) [layer1x1 cB] 0 0
      = opaquePx cA := by
  have hd90 : decode (⟨[(cA, 90)], []⟩ : ColorScale).color_map cA = 90 := rfl
  have e1 : decode (⟨[(cA, 90), (cB, 140)], []⟩ : ColorScale).color_map cA = 90 := rfl
  have e2 : decode (⟨[(cA, 90), (cB, 140)], []⟩ : ColorScale).color_map cB = 140 := rfl
  refine ⟨?_, ?_, ⟨?_, ?_⟩, ?_⟩
  · intro cmap mH mW g pLat pLon c L y x hreg hval hlt
    rw [mergeRC_count_eq, if_pos ⟨hreg, hval⟩]
    exact Nat.mod_eq_of_lt (by omega)
  · intro c y x h
    simp [applyOverlapFilter, h]
  · have hcount : (compositeRC ⟨[(cA, 90)], []⟩ (layer1x1 cA) []).coverage_count 0 0
        = 1 := by
      rw [compositeRC_single, mergeRC_unit_count, hd90,
        if_pos (by norm_num [VALID_THRESHOLD_DB])]
      norm_num [initRC]
    simp [compositeRCImage, applyOverlapFilter, hcount, MIN_OVERLAP_COUNT]
  · rw [compositeRC_single, mergeRC_unit_loss, hd90,
      if_pos (by norm_num [initRC, UNDEFINED_PATH_LOSS, VALID_THRESHOLD_DB])]
  · have hloss1 : (mergeRC (⟨[(cA, 90), (cB, 140)], []⟩ : ColorScale).color_map 1 1 box1
        1 1 initRC (layer1x1 cA)).master_loss 0 0 = 90 := by
      rw [mergeRC_unit_loss, e1,
        if_pos (by norm_num [initRC, UNDEFINED_PATH_LOSS, VALID_THRESHOLD_DB])]
    have hrgba1 : (mergeRC (⟨[(cA, 90), (cB, 140)], []⟩ : ColorScale).color_map 1 1 box1
        1 1 initRC (layer1x1 cA)).master_rgba 0 0 = opaquePx cA := by
      rw [mergeRC_unit_rgba, e1,
        if_pos (by norm_num [initRC, UNDEFINED_PATH_LOSS, VALID_THRESHOLD_DB])]
    have hcount1 : (mergeRC (⟨[(cA, 90), (cB, 140)], []⟩ : ColorScale).color_map 1 1 box1
        1 1 initRC (layer1x1 cA)).coverage_count 0 0 = 1 := by
      rw [mergeRC_unit_count, e1, if_pos (by norm_num [VALID_THRESHOLD_DB])]
      norm_num [initRC]
    have hcount2 : (compositeRC ⟨[(cA, 90), (cB, 140)], []⟩ (layer1x1 cA)
        [layer1x1 cB]).coverage_count 0 0 = 2 := by
      rw [compositeRC_pair, mergeRC_unit_count, e2,
        if_pos (by norm_num [VALID_THRESHOLD_DB]), hcount1]
    have hrgba2 : (compositeRC ⟨[(cA, 90), (cB, 140)], []⟩ (layer1x1 cA)
        [layer1x1 cB]).master_rgba 0 0 = opaquePx cA := by
      rw [compositeRC_pair, mergeRC_unit_rgba, e2, hloss1, if_neg (by norm_num)]
      exact hrgba1
    simp [compositeRCImage, applyOverlapFilter, hcount2, hrgba2, MIN_OVERLAP_COUNT]

/-- Witness for C3 at a concrete configuration: the unit pixel lies in the
slice, its decoded value 90 meets the threshold, the counter 0 is below
the wrap point, the merge increments it to 1, and the final filter wipes a
pixel whose counter is below MIN_OVERLAP_COUNT. -/
theorem overlap_consensus_rule_witness :
    inRegion (yStartOf box1 1 (layer1x1 cA))
      (min (yStartOf box1 1 (layer1x1 cA) + (layer1x1 cA).height) 1)
      (xStartOf box1 1 (layer1x1 cA))
      (min (xStartOf box1 1 (layer1x1 cA) + (layer1x1 cA).width) 1) 0 0 ∧
    decode [(cA, 90)] ((layer1x1 cA).pix (0 - yStartOf box1 1 (layer1x1 cA))
      (0 - xStartOf box1 1 (layer1x1 cA))) ≤ VALID_THRESHOLD_DB ∧
    initRC.coverage_count 0 0 < 255 ∧
    (mergeRC [(cA, 90)] 1 1 box1 1 1 initRC (layer1x1 cA)).coverage_count 0 0
      = initRC.coverage_count 0 0 + 1 ∧
    applyOverlapFilter initRC 0 0 = transparentPx := by
  have hreg : inRegion (yStartOf box1 1 (layer1x1 cA))
      (min (yStartOf box1 1 (layer1x1 cA) + (layer1x1 cA).height) 1)
      (xStartOf box1 1 (layer1x1 cA))
      (min (xStartOf box1 1 (layer1x1 cA) + (layer1x1 cA).width) 1) 0 0 := by
    rw [yStartOf_unit, xStartOf_unit]
    norm_num [inRegion, layer1x1_height, layer1x1_width]
  have hval : decode [(cA, 90)] ((layer1x1 cA).pix (0 - yStartOf box1 1 (layer1x1 cA))
      (0 - xStartOf box1 1 (layer1x1 cA))) ≤ VALID_THRESHOLD_DB := by
    rw [layer1x1_pix, decode_cA90]
    norm_num [VALID_THRESHOLD_DB]
  have hcnt : initRC.coverage_count 0 0 < 255 := by norm_num [initRC]
  exact ⟨hreg, hval, hcnt,
    overlap_consensus_rule.1 [(cA, 90)] 1 1 box1 1 1 initRC (layer1x1 cA) 0 0
      hreg hval hcnt,
    overlap_consensus_rule.2.1 initRC 0 0 (by norm_num [initRC, MIN_OVERLAP_COUNT])⟩

/-- C4: AttributedBestServer: a pixel's canvas value and owner id are
overwritten by an incoming layer exactly when the incoming decoded value
is strictly less than the current canvas value and is at most
VALID_THRESHOLD_DB; a layer decoding to 160.0 at a pixel never claims
ownership there even when no other layer covers that pixel, and in the
final painted output that pixel is fully transparent with owner 0. -/
theorem attributed_best_server_rule :
    (∀ (cmap : List (Color × ℚ)) (mH mW : ℕ) (g : GeoBox) (pLat pLon : ℚ)
        (c : CanvasAS) (S : SrvLayer) (y x : ℕ),
      (mergeAS cmap mH mW g pLat pLon c S).master_loss y x =
        (if inRegion (yStartOf g pLat S.layer)
              (min (yStartOf g pLat S.layer + S.layer.height) mH)
              (xStartOf g pLon S.layer)
              (min (xStartOf g pLon S.layer + S.layer.width) mW) y x
            ∧ decode cmap (S.layer.pix (y - yStartOf g pLat S.layer)
                (x - xStartOf g pLon S.layer)) < c.master_loss y x
            ∧ decode cmap (S.layer.pix (y - yStartOf g pLat S.layer)
                (x - xStartOf g pLon S.layer)) ≤ VALID_THRESHOLD_DB then
          decode cmap (S.layer.pix (y - yStartOf g pLat S.layer)
            (x - xStartOf g pLon S.layer))
        else c.master_loss y x) ∧
      (mergeAS cmap mH mW g pLat pLon c S).master_owner_id y x =
        (if inRegion (yStartOf g pLat S.layer)
              (min (yStartOf g pLat S.layer + S.layer.height) mH)
              (xStartOf g pLon S.layer)
              (min (xStartOf g pLon S.layer + S.layer.width) mW) y x
            ∧ decode cmap (S.layer.pix (y - yStartOf g pLat S.layer)
                (x - xStartOf g pLon S.layer)) < c.master_loss y x
            ∧ decode cmap (S.layer.pix (y - yStartOf g pLat S.layer)
                (x - xStartOf g pLon S.layer)) ≤ VALID_THRESHOLD_DB then
          S.index % 256
        else c.master_owner_id y x)) ∧
    ((compositeASCanvas ⟨[(cA, 160)], []⟩ (layer1x1 cA) []).master_owner_id 0 0 = 0 ∧
     compositeASImage ⟨[(cA, 160)], []⟩ (layer1x1 cA) [] 0 0 = transparentPx) := by
  have hd : decode (⟨[(cA, 160)], []⟩ : ColorScale).color_map cA = 160 := rfl
  have howner : (compositeASCanvas ⟨[(cA, 160)], []⟩ (layer1x1 cA) []).master_owner_id
      0 0 = 0 := by
    rw [compositeASCanvas_single, mergeAS_unit_owner, hd,
      if_neg (by norm_num [initAS, UNDEFINED_PATH_LOSS, VALID_THRESHOLD_DB])]
    rfl
  refine ⟨fun cmap mH mW g pLat pLon c S y x =>
    ⟨mergeAS_loss_eq cmap mH mW g pLat pLon c S y x,
     mergeAS_owner_eq cmap mH mW g pLat pLon c S y x⟩, howner, ?_⟩
  simp only [compositeASImage, assignLayers_single, paintServers, List.foldl_cons,
    List.foldl_nil]
  rw [howner]
  norm_num

/-- C5 counterexample: an existing source whose lines parse to zero valid
entries (a blank line, a comment line, and a row with fewer than four
fields) loads successfully as an empty lookup table; load_lcf has no
EmptyTable failure, refuting the claimed rejection of empty tables. -/
theorem lcf_empty_source_loads :
    loadColorScale (some [LCFLine.blank, LCFLine.comment, LCFLine.row [valTok 80]])
      = Except.ok ⟨[], []⟩ := rfl

/-- C5 (amended): loading the lookup table fails with NotFound when the
source is missing, and that failure aborts the run before any layer work;
a source that parses zero valid lines is returned as an empty lookup
table, not rejected. -/
theorem lcf_load_failure_policy :
    loadColorScale none = Except.error LoadErr.notFound ∧
    (∀ layers : List MapLayer, create_composite_map none layers = none) ∧
    (∀ lines : List LCFLine, parsedEntries lines = [] →
      loadColorScale (some lines) = Except.ok ⟨[], []⟩) := by
  refine ⟨rfl, fun layers => rfl, fun lines h => ?_⟩
  simp [loadColorScale, load_lcf, buildColorMap, sortEntries, h]

/-- Witness for C5's amended statement: a comment-only source parses to no
entries and loads as the empty table. -/
theorem lcf_load_failure_policy_witness :
    parsedEntries [LCFLine.comment] = [] ∧
    loadColorScale (some [LCFLine.comment]) = Except.ok ⟨[], []⟩ :=
  ⟨rfl, lcf_load_failure_policy.2.2 [LCFLine.comment] rfl⟩

/-- C6 counterexample: two successfully parsed lines share the color triple
(1, 2, 3); lookup returns the later value 90 (last-wins holds), but the
entries collection keeps both lines, holding two entries for one distinct
color triple — its color column is not duplicate-free. -/
theorem lut_duplicate_color_entries :
    dictLookup (load_lcf [rowOf 80 1 2 3, rowOf 90 1 2 3]).color_map (1, 2, 3)
      = some 90 ∧
    (load_lcf [rowOf 80 1 2 3, rowOf 90 1 2 3]).entries
      = [(80, (1, 2, 3)), (90, (1, 2, 3))] ∧
    ¬ ((load_lcf [rowOf 80 1 2 3, rowOf 90 1 2 3]).entries.map Prod.snd).Nodup := by
  refine ⟨rfl, ?_, ?_⟩
  · rfl
  · intro h
    have : ((1, 2, 3) : Color) ≠ (1, 2, 3) := by
      have h2 : (load_lcf [rowOf 80 1 2 3, rowOf 90 1 2 3]).entries.map Prod.snd
          = [(1, 2, 3), (1, 2, 3)] := rfl
      rw [h2] at h
      exact (List.nodup_cons.mp h).1 ∘ List.mem_singleton.mpr
    exact this rfl

/-- C6 (amended): lookup of a color returns the value of the last
successfully parsed line carrying that color (last-wins), and the
color_map dict holds at most one entry per distinct color triple; the
entries legend collection, however, keeps one entry per successfully
parsed line, so a color appearing on several lines appears once per
line. -/
theorem lut_last_wins :
    (∀ (lines : List LCFLine) (k : Color),
      dictLookup (load_lcf lines).color_map k = lastVal (parsedEntries lines) k) ∧
    (∀ lines : List LCFLine, ((load_lcf lines).color_map.map Prod.fst).Nodup) ∧
    (∀ lines : List LCFLine, (load_lcf lines).entries.Perm (parsedEntries lines)) := by
  refine ⟨fun lines k => ?_, fun lines => ?_, fun lines => ?_⟩
  · show dictLookup (buildColorMap (parsedEntries lines)) k
      = lastVal (parsedEntries lines) k
    rw [buildColorMap, lastVal, dictLookup_fold]
    rfl
  · exact nodup_keys_fold (parsedEntries lines) [] (by simp)
  · exact sortEntries_perm (parsedEntries lines)

/-- C7: the legend enumeration of a loaded table is sorted ascending by
scalar value, entries with equal values keep their original parse order
(the parse-order subsequence at each value is preserved), and entries
parsed with values [120, 80, 100] are enumerated as 80, 100, 120. -/
theorem legend_sorted_stable :
    (∀ lines : List LCFLine,
      (load_lcf lines).entries.Pairwise (fun a b => a.1 ≤ b.1)) ∧
    (∀ (lines : List LCFLine) (v : ℚ),
      (load_lcf lines).entries.filter (fun e => decide (e.1 = v))
        = (parsedEntries lines).filter (fun e => decide (e.1 = v))) ∧
    (load_lcf [rowOf 120 1 1 1, rowOf 80 2 2 2, rowOf 100 3 3 3]).entries.map Prod.fst
      = [80, 100, 120] := by
  refine ⟨fun lines => ?_, fun lines v => ?_, ?_⟩
  · exact (sortEntries_fold (parsedEntries lines) [] (by simp)).1
  · simpa using (sortEntries_fold (parsedEntries lines) [] (by simp)).2 v
  · rfl

/-- The reference layer of the sizing example: 1000 × 800 pixels spanning
1.0° of longitude × 0.8° of latitude. -/
def refLayer : MapLayer :=
  { box := { north := 0.8, south := 0, east := 1, west := 0 }
    height := 800, width := 1000, pix := fun _ _ => cA }

/-- A second layer stretching the union box to 2.0° × 1.6°. -/
def farLayer : MapLayer :=
  { box := { north := 1.6, south := 0, east := 2, west := 0 }
    height := 1, width := 1, pix := fun _ _ => cA }

/-- C8: the canvas height is (union.north - union.south) * ppd_lat
truncated to an integer with ppd_lat = reference.height /
(reference.north - reference.south), and likewise for the width; for a
reference layer of 1000 × 800 pixels spanning 1.0° × 0.8° and a union box
spanning 2.0° × 1.6°, the canvas is 2000 × 1600 pixels. -/
theorem canvas_sizing :
    (∀ (l0 : MapLayer) (rest : List MapLayer),
      masterH l0 rest = truncQ (((globalBox l0 rest).north - (globalBox l0 rest).south)
          * ((l0.height : ℚ) / (l0.box.north - l0.box.south))) ∧
      masterW l0 rest = truncQ (((globalBox l0 rest).east - (globalBox l0 rest).west)
          * ((l0.width : ℚ) / (l0.box.east - l0.box.west)))) ∧
    masterW refLayer [farLayer] = 2000 ∧ masterH refLayer [farLayer] = 1600 := by
  have hbox : globalBox refLayer [farLayer]
      = { north := 1.6, south := 0, east := 2, west := 0 } := by
    simp only [globalBox, List.foldl_cons, List.foldl_nil, refLayer, farLayer]
    norm_num [max_def, min_def]
  refine ⟨fun l0 rest => ⟨rfl, rfl⟩, ?_, ?_⟩
  · rw [masterW, hbox, ppdLon]
    norm_num [refLayer, truncQ]
  · rw [masterH, hbox, ppdLat]
    norm_num [refLayer, truncQ]

/-- C9: compositing exactly one layer under BestSignal (so the union box
is the layer's box) reproduces that layer's raster pixel for pixel: under
the data model's standing assumption that every table value lies strictly
below the UNDEFINED sentinel, every decodable pixel is opaque in its
original color and every pixel whose color is absent from the lookup table
is fully transparent. -/
theorem roundtrip_best_signal (cs : ColorScale)
    (hvals : ∀ p ∈ cs.color_map, p.2 < UNDEFINED_PATH_LOSS)
    (L : MapLayer) (hns : L.box.south < L.box.north) (hew : L.box.west < L.box.east)
    (y x : ℕ) (hy : y < L.height) (hx : x < L.width) :
    (compositeBS cs L []).master_rgba y x =
      match dictLookup cs.color_map (L.pix y x) with
      | some _ => opaquePx (L.pix y x)
      | none => transparentPx := by
  rw [compositeBS_single, mergeBS_rgba_eq, yStartOf_self, xStartOf_self]
  simp only [Nat.sub_zero, Nat.zero_add]
  have hreg : inRegion 0 (min L.height (masterH L []).toNat) 0
      (min L.width (masterW L []).toNat) y x := by
    rw [masterH_self L hns, masterW_self L hew]
    exact ⟨Nat.zero_le y, by simpa using hy, Nat.zero_le x, by simpa using hx⟩
  cases hl : dictLookup cs.color_map (L.pix y x) with
  | none =>
      rw [decode_of_lookup_none _ _ hl, if_neg (fun h => h.2.2 rfl)]
      rfl
  | some v =>
      have hvlt : v < UNDEFINED_PATH_LOSS := by
        obtain ⟨p, hp, hpv⟩ := lookup_mem_values _ _ _ hl
        exact hpv ▸ hvals p hp
      rw [decode_of_lookup_some _ _ _ hl, if_pos ⟨hreg, hvlt, ne_of_lt hvlt⟩]

/-- Witness for C9 at a concrete table and layer: the single-entry table
is below the sentinel, the unit layer's box is proper, and the composite
reproduces the decodable pixel opaque in its own color. -/
theorem roundtrip_best_signal_witness :
    (∀ p ∈ (⟨[(cA, 100)], []⟩ : ColorScale).color_map, p.2 < UNDEFINED_PATH_LOSS) ∧
    (layer1x1 cA).box.south < (layer1x1 cA).box.north ∧
    (layer1x1 cA).box.west < (layer1x1 cA).box.east ∧
    0 < (layer1x1 cA).height ∧ 0 < (layer1x1 cA).width ∧
    (compositeBS ⟨[(cA, 100)], []⟩ (layer1x1 cA) []).master_rgba 0 0 = opaquePx cA := by
  have h1 : ∀ p ∈ (⟨[(cA, 100)], []⟩ : ColorScale).color_map,
      p.2 < UNDEFINED_PATH_LOSS := by
    intro p hp
    simp only [List.mem_singleton] at hp
    rw [hp]
    norm_num [UNDEFINED_PATH_LOSS]
  have h2 : (layer1x1 cA).box.south < (layer1x1 cA).box.north := by
    norm_num [layer1x1, box1]
  have h3 : (layer1x1 cA).box.west < (layer1x1 cA).box.east := by
    norm_num [layer1x1, box1]
  have h4 : 0 < (layer1x1 cA).height := by norm_num [layer1x1]
  have h5 : 0 < (layer1x1 cA).width := by norm_num [layer1x1]
  have h := roundtrip_best_signal ⟨[(cA, 100)], []⟩ h1 (layer1x1 cA) h2 h3 0 0 h4 h5
  exact ⟨h1, h2, h3, h4, h5, h⟩

/-- C10 (implicit, numerical): the OverlapConsensus overlap counter is an
8-bit unsigned buffer, so each increment is taken modulo 256; at a pixel
where 256 layers meet the validity threshold the counter wraps to 0 and
the final filter makes that pixel transparent even though far more than
MIN_OVERLAP_COUNT layers cover it. -/
theorem overlap_counter_wraps :
    (∀ (cmap : List (Color × ℚ)) (mH mW : ℕ) (g : GeoBox) (pLat pLon : ℚ)
        (c : CanvasRC) (L : MapLayer) (y x : ℕ),
      inRegion (yStartOf g pLat L) (min (yStartOf g pLat L + L.height) mH)
          (xStartOf g pLon L) (min (xStartOf g pLon L + L.width) mW) y x →
      decode cmap (L.pix (y - yStartOf g pLat L) (x - xStartOf g pLon L))
          ≤ VALID_THRESHOLD_DB →
      (mergeRC cmap mH mW g pLat pLon c L).coverage_count y x
        = (c.coverage_count y x + 1) % 256) ∧
    (compositeRC ⟨[(cA, 90)], []⟩ (layer1x1 cA)
        (List.replicate 255 (layer1x1 cA))).coverage_count 0 0 = 0 ∧
    compositeRCImage ⟨[(cA, 90)], []⟩ (layer1x1 cA)
        (List.replicate 255 (layer1x1 cA)) 0 0 = transparentPx := by
  refine ⟨fun cmap mH mW g pLat pLon c L y x hreg hval => ?_, compositeRC_rep_count, ?_⟩
  · rw [mergeRC_count_eq, if_pos ⟨hreg, hval⟩]
  · simp only [compositeRCImage, applyOverlapFilter, compositeRC_rep_count,
      MIN_OVERLAP_COUNT]
    norm_num

/-- Witness for C10 at a concrete configuration: with the counter already
at 255, one more valid layer wraps it to (255 + 1) % 256 = 0. -/
theorem overlap_counter_wraps_witness :
    inRegion (yStartOf box1 1 (layer1x1 cA))
      (min (yStartOf box1 1 (layer1x1 cA) + (layer1x1 cA).height) 1)
      (xStartOf box1 1 (layer1x1 cA))
      (min (xStartOf box1 1 (layer1x1 cA) + (layer1x1 cA).width) 1) 0 0 ∧
    decode [(cA, 90)] ((layer1x1 cA).pix (0 - yStartOf box1 1 (layer1x1 cA))
      (0 - xStartOf box1 1 (layer1x1 cA))) ≤ VALID_THRESHOLD_DB ∧
    (mergeRC [(cA, 90)] 1 1 box1 1 1
        ⟨initRC.master_loss, initRC.master_rgba, fun _ _ => 255⟩
        (layer1x1 cA)).coverage_count 0 0 = (255 + 1) % 256 := by
  have hreg : inRegion (yStartOf box1 1 (layer1x1 cA))
      (min (yStartOf box1 1 (layer1x1 cA) + (layer1x1 cA).height) 1)
      (xStartOf box1 1 (layer1x1 cA))
      (min (xStartOf box1 1 (layer1x1 cA) + (layer1x1 cA).width) 1) 0 0 := by
    rw [yStartOf_unit, xStartOf_unit]
    norm_num [inRegion, layer1x1_height, layer1x1_width]
  have hval : decode [(cA, 90)] ((layer1x1 cA).pix (0 - yStartOf box1 1 (layer1x1 cA))
      (0 - xStartOf box1 1 (layer1x1 cA))) ≤ VALID_THRESHOLD_DB := by
    rw [layer1x1_pix, decode_cA90]
    norm_num [VALID_THRESHOLD_DB]
  exact ⟨hreg, hval,
    overlap_counter_wraps.1 [(cA, 90)] 1 1 box1 1 1
      ⟨initRC.master_loss, initRC.master_rgba, fun _ _ => 255⟩ (layer1x1 cA) 0 0
      hreg hval⟩

end CoverageUtils
